import Mathlib

/-!
Verification development for the maker-chips repository.

The geometry kernel (manifold-3d) is an external collaborator; its 2D and 3D
value types are embedded as follows.

A CrossSection that flows through the pattern pipeline (SVG sampling,
scaleToSizeAndCenter) is represented by the finite list of its polygon
vertices, with coordinates in ℚ.  This matches the kernel interface: the
bounds of a polygonal region are the coordinatewise extrema of its vertex
list, and scale and translate act pointwise on vertices.

CrossSections built by kernel constructor calls (circle, square, union,
translate) are represented by a small syntax tree, CS, mirroring the calls
the source makes.  CS carries two semantics: CS.bounds, the bounding box the
kernel reports (exact for the constructors used here, whose circle segment
counts are divisible by 4), and CS.region, the planar region as a set of
real points (circles idealized to perfect disks, which agrees with the
polygonal kernel on bounds and contains the inscribed polygon; a sampled
pattern denotes the convex hull of its vertices, which encloses the filled
even-odd polygon the kernel builds from them and shares its vertices).

Solids are a syntax tree mirroring the kernel calls (revolve, extrude,
translate, mirror, subtract) plus Solid.prefab for solids delivered by
external generator modules (QR code, image extrude), which carry the
bounding box the kernel reports for them.  Solid.boundingBox is the box the
kernel reports; for Solid.subtract it returns the box of the minuend, an
enclosing box of the kernel box (the kernel recomputes the box of the
difference mesh, which is always contained in the box of the minuend).
Solid.region is the pointwise semantics over ℝ used for containment claims.
-/

namespace MakerChips

/-- Points in 3-space over ℚ, written as nested pairs x, y, z. -/
abbrev Q3 : Type := ℚ × ℚ × ℚ

/-- Axis-aligned bounding box of a solid, as reported by the kernel. -/
structure Box3 where
  bmin : Q3
  bmax : Q3
deriving DecidableEq

/-- Fold of min over a list with an initial value. -/
def lmin (a : ℚ) (l : List ℚ) : ℚ := l.foldl min a

/-- Fold of max over a list with an initial value. -/
def lmax (a : ℚ) (l : List ℚ) : ℚ := l.foldl max a

/-- Bounds of a vertex list, as the kernel reports for a polygonal
cross-section: coordinatewise minima and maxima over the vertices.  The
kernel value for an empty cross-section is modelled as the zero box. -/
def ptsBounds (pts : List (ℚ × ℚ)) : ((ℚ × ℚ) × (ℚ × ℚ)) :=
  match pts with
  | [] => ((0, 0), (0, 0))
  | p :: r =>
      ((lmin p.1 (r.map Prod.fst), lmin p.2 (r.map Prod.snd)),
       (lmax p.1 (r.map Prod.fst), lmax p.2 (r.map Prod.snd)))

/-- Translation of crossSectionUtils.scaleToSizeAndCenter: scale a
cross-section uniformly to fit the target width and height, then translate
so its bounding box is centered at the origin; degenerate input is returned
unchanged. -/
def scaleToSizeAndCenter (crossSection : List (ℚ × ℚ))
    (targetWidth targetHeight : ℚ) : List (ℚ × ℚ) :=
  let bounds := ptsBounds crossSection
  let currentWidth := bounds.2.1 - bounds.1.1
  let currentHeight := bounds.2.2 - bounds.1.2
  if currentWidth = 0 ∨ currentHeight = 0 then
    crossSection
  else
    let scaleX := targetWidth / currentWidth
    let scaleY := targetHeight / currentHeight
    let scale := min scaleX scaleY
    let scaled := crossSection.map (fun p => (scale * p.1, scale * p.2))
    let scaledBounds := ptsBounds scaled
    let scaledWidth := scaledBounds.2.1 - scaledBounds.1.1
    let scaledHeight := scaledBounds.2.2 - scaledBounds.1.2
    let offsetX := -scaledBounds.1.1 - scaledWidth / 2
    let offsetY := -scaledBounds.1.2 - scaledHeight / 2
    scaled.map (fun p => (p.1 + offsetX, p.2 + offsetY))

/-- Syntax of the kernel CrossSection constructor calls the source makes.
fromPoints injects a sampled pattern vertex list. -/
inductive CS where
  | circle (radius : ℚ) (segments : ℕ)
  | square (w h : ℚ) (centered : Bool)
  | add (a b : CS)
  | translate (c : CS) (v : ℚ × ℚ)
  | fromPoints (pts : List (ℚ × ℚ))
deriving DecidableEq

/-- Hull of two 2D bounds, the bounds the kernel reports for a union. -/
def hull2 (a b : ((ℚ × ℚ) × (ℚ × ℚ))) : ((ℚ × ℚ) × (ℚ × ℚ)) :=
  ((min a.1.1 b.1.1, min a.1.2 b.1.2), (max a.2.1 b.2.1, max a.2.2 b.2.2))

/-- Bounds of a constructed cross-section as the kernel reports them.  For
the circle constructor this is the box of the inscribed polygon, which for
segment counts divisible by 4 (the source uses 24 and 64) equals the box of
the ideal disk. -/
def CS.bounds : CS → ((ℚ × ℚ) × (ℚ × ℚ))
  | .circle r _ => ((-r, -r), (r, r))
  | .square w h centered =>
      if centered then ((-(w / 2), -(h / 2)), (w / 2, h / 2))
      else ((0, 0), (w, h))
  | .add a b => hull2 a.bounds b.bounds
  | .translate c v =>
      ((c.bounds.1.1 + v.1, c.bounds.1.2 + v.2),
       (c.bounds.2.1 + v.1, c.bounds.2.2 + v.2))
  | .fromPoints pts => ptsBounds pts

/-- Radii of all circle constructor calls inside a cross-section term, in
left-to-right order. -/
def circleRadii : CS → List ℚ
  | .circle r _ => [r]
  | .square _ _ _ => []
  | .add a b => circleRadii a ++ circleRadii b
  | .translate c _ => circleRadii c
  | .fromPoints _ => []

/-- Planar region denoted by a cross-section term, over ℝ.  Circles are
idealized to closed disks.  fromPoints denotes the convex hull of the
sampled vertices: the filled even-odd polygon region the kernel gives a
sampled pattern contains every vertex of its path and is contained in the
convex hull of those vertices, so the model region encloses the kernel
region (a containment proved of the model region covers the whole trimmed
solid) while each vertex, the kind of point refutations exhibit, belongs to
both. -/
def CS.region : CS → Set (ℝ × ℝ)
  | .circle r _ => {p | p.1 ^ 2 + p.2 ^ 2 ≤ (r : ℝ) ^ 2}
  | .square w h centered =>
      if centered then
        {p | -((w : ℝ) / 2) ≤ p.1 ∧ p.1 ≤ (w : ℝ) / 2 ∧
             -((h : ℝ) / 2) ≤ p.2 ∧ p.2 ≤ (h : ℝ) / 2}
      else
        {p | 0 ≤ p.1 ∧ p.1 ≤ (w : ℝ) ∧ 0 ≤ p.2 ∧ p.2 ≤ (h : ℝ)}
  | .add a b => a.region ∪ b.region
  | .translate c v => {p | (p.1 - (v.1 : ℝ), p.2 - (v.2 : ℝ)) ∈ c.region}
  | .fromPoints pts => convexHull ℝ {p | ∃ q ∈ pts, p = ((q.1 : ℝ), (q.2 : ℝ))}

/-- Syntax of the kernel Solid constructor calls the source makes.  prefab
is a solid delivered by an external generator module, carrying the bounding
box the kernel reports for it. -/
inductive Solid where
  | revolve (profile : CS) (segments : ℕ)
  | extrude (c : CS) (h : ℚ)
  | translate (s : Solid) (v : Q3)
  | mirror (s : Solid) (n : Q3)
  | subtract (a b : Solid)
  | prefab (tag : String) (box : Box3)
deriving DecidableEq

/-- Bounding box of a solid as the kernel reports it.  Exact for every
constructor except subtract, where the kernel box of the difference is
contained in the returned box (the box of the minuend); only the x-axis
mirror, the one the source uses, is modelled. -/
def Solid.boundingBox : Solid → Box3
  | .revolve profile _ =>
      let b := profile.bounds
      let mx := max b.2.1 0
      ⟨(-mx, -mx, b.1.2), (mx, mx, b.2.2)⟩
  | .extrude c h =>
      let b := c.bounds
      ⟨(b.1.1, b.1.2, 0), (b.2.1, b.2.2, h)⟩
  | .translate s v =>
      let b := s.boundingBox
      ⟨(b.bmin.1 + v.1, b.bmin.2.1 + v.2.1, b.bmin.2.2 + v.2.2),
       (b.bmax.1 + v.1, b.bmax.2.1 + v.2.1, b.bmax.2.2 + v.2.2)⟩
  | .mirror s n =>
      let b := s.boundingBox
      if n = ((1 : ℚ), (0 : ℚ), (0 : ℚ)) then
        ⟨(-b.bmax.1, b.bmin.2.1, b.bmin.2.2), (-b.bmin.1, b.bmax.2.1, b.bmax.2.2)⟩
      else b
  | .subtract a _ => a.boundingBox
  | .prefab _ box => box

/-- Region of space denoted by a solid term, over ℝ.  revolve is the ideal
solid of revolution of the profile about the z axis (the x coordinate of
the profile is the distance from the axis); a prefab solid denotes the box
region the kernel reports for it. -/
def Solid.region : Solid → Set (ℝ × ℝ × ℝ)
  | .revolve profile _ =>
      {p | ∃ s : ℝ, 0 ≤ s ∧ s ^ 2 = p.1 ^ 2 + p.2.1 ^ 2 ∧
             (s, p.2.2) ∈ profile.region}
  | .extrude c h =>
      {p | (p.1, p.2.1) ∈ c.region ∧ 0 ≤ p.2.2 ∧ p.2.2 ≤ (h : ℝ)}
  | .translate s v =>
      {p | (p.1 - (v.1 : ℝ), p.2.1 - (v.2.1 : ℝ), p.2.2 - (v.2.2 : ℝ)) ∈ s.region}
  | .mirror s n =>
      if n = ((1 : ℚ), (0 : ℚ), (0 : ℚ)) then
        {p | (-p.1, p.2.1, p.2.2) ∈ s.region}
      else s.region
  | .subtract a b => a.region \ b.region
  | .prefab _ box =>
      {p | (box.bmin.1 : ℝ) ≤ p.1 ∧ p.1 ≤ (box.bmax.1 : ℝ) ∧
           (box.bmin.2.1 : ℝ) ≤ p.2.1 ∧ p.2.1 ≤ (box.bmax.2.1 : ℝ) ∧
           (box.bmin.2.2 : ℝ) ≤ p.2.2 ∧ p.2.2 ≤ (box.bmax.2.2 : ℝ)}

/-- External collaborators of the pattern pipeline: the SVG sampler
(svgToPolygons, which turns SVG content into polygon vertices at a maximum
error) and the kernel simplification at a tolerance.  Both are consumed as
opaque functions, so the model takes them as parameters. -/
structure ExtEnv where
  sample : String → List (ℚ × ℚ)
  simplifyAt : List (ℚ × ℚ) → ℚ → List (ℚ × ℚ)

/-- Modelled from the spec: the embeddedSvgs module is not under src; its
keys are the 20 registered pattern identifiers listed in the parameter
schema and the README (makerChipV1 through makerChipV20). -/
def embeddedSvgKeys : List String :=
  ["makerChipV1", "makerChipV2", "makerChipV3", "makerChipV4", "makerChipV5",
   "makerChipV6", "makerChipV7", "makerChipV8", "makerChipV9", "makerChipV10",
   "makerChipV11", "makerChipV12", "makerChipV13", "makerChipV14", "makerChipV15",
   "makerChipV16", "makerChipV17", "makerChipV18", "makerChipV19", "makerChipV20"]

/-- Modelled from the spec: lookup in the embeddedSvgs registry.  The SVG
content strings are not under src and are opaque to every claim, so each
key is mapped to a nonempty placeholder content token. -/
def embeddedSvgs (name : String) : Option String :=
  if name ∈ embeddedSvgKeys then some ("svg-" ++ name) else none

/-- Translation of utils.parseSvgToCrossSection: look the pattern name up in
the embedded registry, fail with a message listing the registered names when
absent, otherwise sample the SVG, flip the y axis of every vertex, and
simplify at the tolerance. -/
def parseSvgToCrossSection (env : ExtEnv) (shapeName : String)
    (maxError : ℚ := 1 / 100) : Except String (List (ℚ × ℚ)) :=
  match embeddedSvgs shapeName with
  | none =>
      .error ("Unknown shape: " ++ shapeName ++ ". Available shapes: " ++
        String.intercalate ", " embeddedSvgKeys)
  | some svgContent =>
      let polygons := env.sample svgContent
      let flippedPolygons := polygons.map (fun p => (p.1, -p.2))
      .ok (env.simplifyAt flippedPolygons maxError)

/-- Angular resolution of the disk revolution, from disk.ts. -/
def REVOLVE_SEGMENTS : ℕ := 180

/-- Translation of disk.generateDiskProfile: clamp the rounding radius to
half the height, place two corner circles, and union them with two filler
rectangles. -/
def generateDiskProfile (radius roundingRadius height : ℚ) : CS :=
  let clampedRounding := min roundingRadius (height / 2)
  let circle1 := (CS.circle clampedRounding 24).translate
    (radius - clampedRounding, clampedRounding)
  let circle2 := (CS.circle clampedRounding 24).translate
    (radius - clampedRounding, height - clampedRounding)
  let fillRect := (CS.square clampedRounding (height - clampedRounding * 2) true).translate
    (radius - clampedRounding / 2, height / 2)
  let fillRect2 := CS.square (radius - clampedRounding) height false
  ((circle1.add circle2).add fillRect).add fillRect2

/-- Translation of disk.roundedDisk: revolve the disk profile. -/
def roundedDisk (radius roundingRadius height : ℚ) : Solid :=
  Solid.revolve (generateDiskProfile radius roundingRadius height) REVOLVE_SEGMENTS

/-- Segment count the kernel uses when revolve is called with no argument,
as in roundDiskEdges.  The value never enters any bound or region. -/
def KERNEL_DEFAULT_SEGMENTS : ℕ := 0

/-- Translation of disk.roundDiskEdges: build an oversized flat disk,
subtract the correctly rounded disk from it to obtain a rounded cutting
shell, and subtract that shell from the original solid. -/
def roundDiskEdges (original : Solid) (radius roundingRadius height : ℚ) : Solid :=
  let offset : ℚ := 10
  let largerDisk := Solid.revolve (CS.square (radius + offset) (height + offset) false)
    KERNEL_DEFAULT_SEGMENTS
  let roundedDiskShape := roundedDisk radius roundingRadius height
  let roundedHoleShape := Solid.subtract largerDisk roundedDiskShape
  Solid.subtract original roundedHoleShape

/-- Translation of disk.generateMarkingShape: parse the named SVG pattern,
scale and center it to a square of side two radii plus a small overlap,
extrude it to the chip height, and trim it with roundDiskEdges. -/
def generateMarkingShape (env : ExtEnv) (shapeName : String)
    (radius roundingRadius height : ℚ) : Except String Solid :=
  match parseSvgToCrossSection env shapeName with
  | .error e => .error e
  | .ok shape =>
      let sizeOffset : ℚ := 1 / 10
      let sizedShape := scaleToSizeAndCenter shape
        (radius * 2 + sizeOffset) (radius * 2 + sizeOffset)
      let extrudedShape := Solid.extrude (CS.fromPoints sizedShape) height
      .ok (roundDiskEdges extrudedShape radius roundingRadius height)

/-- Translation of disk.generateCenterDisk: a 64-segment circle extruded to
the chip height. -/
def generateCenterDisk (centerCircleRadius height : ℚ) : Solid :=
  Solid.extrude (CS.circle centerCircleRadius 64) height

/-- Parameters of the generator, from params.ts, flattened: qrEnabled and
imageEnabled model the enabled flags of the optional embedded sub-shape
settings (absent settings behave as disabled), and qrSize models the size
field of the QR sub-parameters (none when absent). -/
structure MakerChipParams where
  radius : ℚ
  height : ℚ
  roundingRadius : ℚ
  centerCircleRadius : ℚ
  assemblyType : String
  markings : String
  qrEnabled : Bool
  qrSize : Option ℚ
  imageEnabled : Bool
deriving DecidableEq

/-- Effective QR size used by the flat layout, modelling the source
expression params.qrCodeSettings.params.size or-else 18 (an absent or zero
size falls back to 18, since 0 is falsy in the source language). -/
def qrSizeEff (params : MakerChipParams) : ℚ :=
  match params.qrSize with
  | none => 18
  | some s => if s = 0 then 18 else s

/-- Translation of assembly.assembleMakerchipShapes.  The external QR and
image generator modules are injected as qrGen and imgGen: some s models the
generator returning the solid s, none models the generator throwing, in
which case the source catches, logs and leaves the local variable
undefined.  The flat branch spreads the parts out; the printable branch
stacks them; any other assembly type falls through to the empty list. -/
def assembleMakerchipShapes (env : ExtEnv) (params : MakerChipParams)
    (assemblyType : String) (qrGen imgGen : Option Solid) :
    Except String (List Solid) :=
  match generateMarkingShape env params.markings params.radius
      params.roundingRadius params.height with
  | .error e => .error e
  | .ok marking =>
      let disk := roundedDisk params.radius params.roundingRadius params.height
      let centerDisk := generateCenterDisk params.centerCircleRadius params.height
      let qrCode : Option Solid := if params.qrEnabled then qrGen else none
      let imageExtrude : Option Solid := if params.imageEnabled then imgGen else none
      if assemblyType = "flat" then
        let offset := 2 * params.radius + 1
        .ok ([disk,
              Solid.translate marking (offset, 0, 0),
              Solid.translate centerDisk (0, offset, 0)] ++
          (match qrCode with
           | some qr =>
               let qrSize := qrSizeEff params
               [Solid.translate qr (-(params.radius + qrSize / 2 + 1), 0, 0)]
           | none => []) ++
          (match imageExtrude with
           | some img =>
               let bounds := img.boundingBox
               let h := bounds.bmax.2.1 - bounds.bmin.2.1
               [Solid.translate img (0, -(params.radius + h / 2 + 1), 0)]
           | none => []))
      else if assemblyType = "printable" then
        .ok ([disk, centerDisk, marking] ++
          (match qrCode with
           | some qr =>
               let zTranslate := params.height - qr.boundingBox.bmax.2.2
               [Solid.translate qr (0, 0, zTranslate)]
           | none => []) ++
          (match imageExtrude with
           | some img => [Solid.mirror img (1, 0, 0)]
           | none => []))
      else
        .ok []

/-- Extruder chosen for the part with 0-based index i, from
threeMfExport.generateModelSettingsConfig. -/
def extruderForPart (i : ℕ) : ℕ := if i < 4 then i + 1 else 4

/-- One part entry of the model_settings.config XML: its 1-based id, its
name metadata and its extruder metadata. -/
structure PartConfig where
  pid : ℕ
  pname : String
  extruder : ℕ
deriving DecidableEq

/-- Translation of threeMfExport.generateModelSettingsConfig, modelling the
emitted XML as its list of part entries: part i (0-based) gets id i+1, the
assembly name suffixed with i+1, and extruderForPart i. -/
def generateModelSettingsConfig (partsCount : ℕ) : List PartConfig :=
  (List.range partsCount).map (fun i =>
    ⟨i + 1, "Makerchip-Assembly_" ++ toString (i + 1), extruderForPart i⟩)

/-- Structured content of the 3MF export: the assembled shapes (meshes are
extracted from them in order) and the model_settings.config part entries.
The XML text, zip container and thumbnail plumbing are external serializers
and carry no further geometric content. -/
structure ThreeMfModel where
  shapes : List Solid
  modelSettings : List PartConfig
deriving DecidableEq

/-- Translation of threeMfExport.threeMfExport: always assemble with the
printable layout, regardless of params.assemblyType, and emit one
model_settings part entry per assembled shape. -/
def threeMfExport (env : ExtEnv) (params : MakerChipParams)
    (qrGen imgGen : Option Solid) : Except String ThreeMfModel :=
  match assembleMakerchipShapes env params "printable" qrGen imgGen with
  | .error e => .error e
  | .ok shapes => .ok ⟨shapes, generateModelSettingsConfig shapes.length⟩

/-! Lemmas about the vertex-list bounds and scaleToSizeAndCenter. -/

/-- Width of the bounds of a vertex list. -/
def csWidth (pts : List (ℚ × ℚ)) : ℚ := (ptsBounds pts).2.1 - (ptsBounds pts).1.1

/-- Height of the bounds of a vertex list. -/
def csHeight (pts : List (ℚ × ℚ)) : ℚ := (ptsBounds pts).2.2 - (ptsBounds pts).1.2

/-- Uniform scale factor scaleToSizeAndCenter picks. -/
def fitScale (pts : List (ℚ × ℚ)) (tw th : ℚ) : ℚ :=
  min (tw / csWidth pts) (th / csHeight pts)

/-- Horizontal translation scaleToSizeAndCenter applies after scaling. -/
def scaleDx (pts : List (ℚ × ℚ)) (tw th : ℚ) : ℚ :=
  -(fitScale pts tw th * (ptsBounds pts).1.1) - fitScale pts tw th * csWidth pts / 2

/-- Vertical translation scaleToSizeAndCenter applies after scaling. -/
def scaleDy (pts : List (ℚ × ℚ)) (tw th : ℚ) : ℚ :=
  -(fitScale pts tw th * (ptsBounds pts).1.2) - fitScale pts tw th * csHeight pts / 2

lemma foldl_min_map (f : ℚ → ℚ) (hf : ∀ a b, f (min a b) = min (f a) (f b)) :
    ∀ (l : List ℚ) (a : ℚ), (l.map f).foldl min (f a) = f (l.foldl min a)
  | [], _ => rfl
  | x :: xs, a => by
      simp only [List.map_cons, List.foldl_cons, ← hf]
      exact foldl_min_map f hf xs (min a x)

lemma foldl_max_map (f : ℚ → ℚ) (hf : ∀ a b, f (max a b) = max (f a) (f b)) :
    ∀ (l : List ℚ) (a : ℚ), (l.map f).foldl max (f a) = f (l.foldl max a)
  | [], _ => rfl
  | x :: xs, a => by
      simp only [List.map_cons, List.foldl_cons, ← hf]
      exact foldl_max_map f hf xs (max a x)

lemma affine_min (s d : ℚ) (hs : 0 ≤ s) (a b : ℚ) :
    s * min a b + d = min (s * a + d) (s * b + d) := by
  rcases le_total a b with h | h
  · rw [min_eq_left h, min_eq_left]
    exact add_le_add_right (mul_le_mul_of_nonneg_left h hs) d
  · rw [min_eq_right h, min_eq_right]
    exact add_le_add_right (mul_le_mul_of_nonneg_left h hs) d

lemma affine_max (s d : ℚ) (hs : 0 ≤ s) (a b : ℚ) :
    s * max a b + d = max (s * a + d) (s * b + d) := by
  rcases le_total a b with h | h
  · rw [max_eq_right h, max_eq_right]
    exact add_le_add_right (mul_le_mul_of_nonneg_left h hs) d
  · rw [max_eq_left h, max_eq_left]
    exact add_le_add_right (mul_le_mul_of_nonneg_left h hs) d

lemma lmin_le_init : ∀ (l : List ℚ) (a : ℚ), lmin a l ≤ a
  | [], _ => le_refl _
  | x :: xs, a =>
      le_trans (by simpa [lmin] using lmin_le_init xs (min a x)) (min_le_left a x)

lemma init_le_lmax : ∀ (l : List ℚ) (a : ℚ), a ≤ lmax a l
  | [], _ => le_refl _
  | x :: xs, a =>
      le_trans (le_max_left a x) (by simpa [lmax] using init_le_lmax xs (max a x))

lemma lmin_le_mem : ∀ (l : List ℚ) (a x : ℚ), x ∈ l → lmin a l ≤ x
  | [], _, _, hx => absurd hx (List.not_mem_nil _)
  | y :: ys, a, x, hx => by
      rcases List.mem_cons.mp hx with h | h
      · subst h
        exact le_trans (by simpa [lmin] using lmin_le_init ys (min a x)) (min_le_right a x)
      · simpa [lmin] using lmin_le_mem ys (min a y) x h

lemma mem_le_lmax : ∀ (l : List ℚ) (a x : ℚ), x ∈ l → x ≤ lmax a l
  | [], _, _, hx => absurd hx (List.not_mem_nil _)
  | y :: ys, a, x, hx => by
      rcases List.mem_cons.mp hx with h | h
      · subst h
        exact le_trans (le_max_right a x) (by simpa [lmax] using init_le_lmax ys (max a x))
      · simpa [lmax] using mem_le_lmax ys (max a y) x h

lemma csWidth_nonneg (pts : List (ℚ × ℚ)) : 0 ≤ csWidth pts := by
  cases pts with
  | nil => simp [csWidth, ptsBounds]
  | cons p r =>
      have h1 : lmin p.1 (r.map Prod.fst) ≤ p.1 := lmin_le_init _ _
      have h2 : p.1 ≤ lmax p.1 (r.map Prod.fst) := init_le_lmax _ _
      simp only [csWidth, ptsBounds]
      linarith

lemma csHeight_nonneg (pts : List (ℚ × ℚ)) : 0 ≤ csHeight pts := by
  cases pts with
  | nil => simp [csHeight, ptsBounds]
  | cons p r =>
      have h1 : lmin p.2 (r.map Prod.snd) ≤ p.2 := lmin_le_init _ _
      have h2 : p.2 ≤ lmax p.2 (r.map Prod.snd) := init_le_lmax _ _
      simp only [csHeight, ptsBounds]
      linarith

lemma fitScale_pos (pts : List (ℚ × ℚ)) (tw th : ℚ) (htw : 0 < tw) (hth : 0 < th)
    (hw : csWidth pts ≠ 0) (hh : csHeight pts ≠ 0) : 0 < fitScale pts tw th := by
  have hw' : 0 < csWidth pts := lt_of_le_of_ne (csWidth_nonneg pts) (Ne.symm hw)
  have hh' : 0 < csHeight pts := lt_of_le_of_ne (csHeight_nonneg pts) (Ne.symm hh)
  exact lt_min (div_pos htw hw') (div_pos hth hh')

lemma ptsBounds_map_affine (s dx dy : ℚ) (hs : 0 ≤ s) (p : ℚ × ℚ) (r : List (ℚ × ℚ)) :
    ptsBounds ((p :: r).map (fun q => (s * q.1 + dx, s * q.2 + dy))) =
      ((s * (ptsBounds (p :: r)).1.1 + dx, s * (ptsBounds (p :: r)).1.2 + dy),
       (s * (ptsBounds (p :: r)).2.1 + dx, s * (ptsBounds (p :: r)).2.2 + dy)) := by
  have hfst : ∀ (l : List (ℚ × ℚ)),
      (l.map (fun q => (s * q.1 + dx, s * q.2 + dy))).map Prod.fst =
        (l.map Prod.fst).map (fun x => s * x + dx) := by
    intro l
    simp [List.map_map]
  have hsnd : ∀ (l : List (ℚ × ℚ)),
      (l.map (fun q => (s * q.1 + dx, s * q.2 + dy))).map Prod.snd =
        (l.map Prod.snd).map (fun x => s * x + dy) := by
    intro l
    simp [List.map_map]
  simp only [ptsBounds, List.map_cons, lmin, lmax]
  refine Prod.ext (Prod.ext ?_ ?_) (Prod.ext ?_ ?_) <;> simp only []
  · rw [show ((r.map fun q => (s * q.1 + dx, s * q.2 + dy)).map Prod.fst) =
        ((r.map Prod.fst).map (fun x => s * x + dx)) from hfst r]
    exact foldl_min_map (fun x => s * x + dx) (fun a b => (affine_min s dx hs a b)) _ _
  · rw [show ((r.map fun q => (s * q.1 + dx, s * q.2 + dy)).map Prod.snd) =
        ((r.map Prod.snd).map (fun x => s * x + dy)) from hsnd r]
    exact foldl_min_map (fun x => s * x + dy) (fun a b => (affine_min s dy hs a b)) _ _
  · rw [show ((r.map fun q => (s * q.1 + dx, s * q.2 + dy)).map Prod.fst) =
        ((r.map Prod.fst).map (fun x => s * x + dx)) from hfst r]
    exact foldl_max_map (fun x => s * x + dx) (fun a b => (affine_max s dx hs a b)) _ _
  · rw [show ((r.map fun q => (s * q.1 + dx, s * q.2 + dy)).map Prod.snd) =
        ((r.map Prod.snd).map (fun x => s * x + dy)) from hsnd r]
    exact foldl_max_map (fun x => s * x + dy) (fun a b => (affine_max s dy hs a b)) _ _

lemma scaleToSizeAndCenter_def2 (pts : List (ℚ × ℚ)) (tw th : ℚ) :
    scaleToSizeAndCenter pts tw th =
      if csWidth pts = 0 ∨ csHeight pts = 0 then pts
      else
        (pts.map (fun p => (fitScale pts tw th * p.1, fitScale pts tw th * p.2))).map
          (fun p =>
            (p.1 + (-(ptsBounds (pts.map (fun q =>
                (fitScale pts tw th * q.1, fitScale pts tw th * q.2)))).1.1 -
              ((ptsBounds (pts.map (fun q =>
                (fitScale pts tw th * q.1, fitScale pts tw th * q.2)))).2.1 -
               (ptsBounds (pts.map (fun q =>
                (fitScale pts tw th * q.1, fitScale pts tw th * q.2)))).1.1) / 2),
             p.2 + (-(ptsBounds (pts.map (fun q =>
                (fitScale pts tw th * q.1, fitScale pts tw th * q.2)))).1.2 -
              ((ptsBounds (pts.map (fun q =>
                (fitScale pts tw th * q.1, fitScale pts tw th * q.2)))).2.2 -
               (ptsBounds (pts.map (fun q =>
                (fitScale pts tw th * q.1, fitScale pts tw th * q.2)))).1.2) / 2))) :=
  rfl

lemma scaleToSizeAndCenter_eq_map (pts : List (ℚ × ℚ)) (tw th : ℚ)
    (htw : 0 < tw) (hth : 0 < th) (hw : csWidth pts ≠ 0) (hh : csHeight pts ≠ 0) :
    scaleToSizeAndCenter pts tw th =
      pts.map (fun p => (fitScale pts tw th * p.1 + scaleDx pts tw th,
                         fitScale pts tw th * p.2 + scaleDy pts tw th)) := by
  have hs : 0 ≤ fitScale pts tw th := le_of_lt (fitScale_pos pts tw th htw hth hw hh)
  rw [scaleToSizeAndCenter_def2, if_neg (by push_neg; exact ⟨hw, hh⟩)]
  cases pts with
  | nil => simp [csWidth, ptsBounds] at hw
  | cons p r =>
      have hf0 : (fun q : ℚ × ℚ =>
          (fitScale (p :: r) tw th * q.1, fitScale (p :: r) tw th * q.2)) =
          (fun q : ℚ × ℚ =>
          (fitScale (p :: r) tw th * q.1 + 0, fitScale (p :: r) tw th * q.2 + 0)) := by
        funext q
        simp
      rw [hf0, ptsBounds_map_affine _ 0 0 hs p r, List.map_map]
      congr 1
      funext q
      refine Prod.ext ?_ ?_ <;>
        simp only [Function.comp, scaleDx, scaleDy, csWidth, csHeight] <;> ring

lemma scaleToSizeAndCenter_bounds (pts : List (ℚ × ℚ)) (tw th : ℚ)
    (htw : 0 < tw) (hth : 0 < th) (hw : csWidth pts ≠ 0) (hh : csHeight pts ≠ 0) :
    ptsBounds (scaleToSizeAndCenter pts tw th) =
      ((-(fitScale pts tw th * csWidth pts / 2), -(fitScale pts tw th * csHeight pts / 2)),
       (fitScale pts tw th * csWidth pts / 2, fitScale pts tw th * csHeight pts / 2)) := by
  have hs : 0 ≤ fitScale pts tw th := le_of_lt (fitScale_pos pts tw th htw hth hw hh)
  rw [scaleToSizeAndCenter_eq_map pts tw th htw hth hw hh]
  cases pts with
  | nil => simp [csWidth, ptsBounds] at hw
  | cons p r =>
      rw [ptsBounds_map_affine _ _ _ hs p r]
      refine Prod.ext (Prod.ext ?_ ?_) (Prod.ext ?_ ?_) <;>
        simp only [scaleDx, scaleDy, csWidth, csHeight] <;> ring

lemma fitScale_mul_width_le (pts : List (ℚ × ℚ)) (tw th : ℚ)
    (hw : csWidth pts ≠ 0) : fitScale pts tw th * csWidth pts ≤ tw := by
  have hw' : 0 < csWidth pts := lt_of_le_of_ne (csWidth_nonneg pts) (Ne.symm hw)
  calc fitScale pts tw th * csWidth pts
      ≤ (tw / csWidth pts) * csWidth pts :=
        mul_le_mul_of_nonneg_right (min_le_left _ _) (le_of_lt hw')
    _ = tw := div_mul_cancel₀ tw (ne_of_gt hw')

lemma fitScale_mul_height_le (pts : List (ℚ × ℚ)) (tw th : ℚ)
    (hh : csHeight pts ≠ 0) : fitScale pts tw th * csHeight pts ≤ th := by
  have hh' : 0 < csHeight pts := lt_of_le_of_ne (csHeight_nonneg pts) (Ne.symm hh)
  calc fitScale pts tw th * csHeight pts
      ≤ (th / csHeight pts) * csHeight pts :=
        mul_le_mul_of_nonneg_right (min_le_right _ _) (le_of_lt hh')
    _ = th := div_mul_cancel₀ th (ne_of_gt hh')

/-- C5: on a cross-section with nonzero bounds width and height,
scaleToSizeAndCenter scales both axes uniformly by the minimum of the two
target ratios and translates; the resulting bounds are centered at the
origin, both dimensions fit the targets, and the constrained dimension
exactly equals its target; a degenerate cross-section (zero width or zero
height) is returned unchanged, with no division performed. -/
theorem C5_scaleToSizeAndCenter (pts degPts : List (ℚ × ℚ)) (tw th dtw dth : ℚ)
    (htw : 0 < tw) (hth : 0 < th)
    (hw : csWidth pts ≠ 0) (hh : csHeight pts ≠ 0)
    (hdeg : csWidth degPts = 0 ∨ csHeight degPts = 0) :
    scaleToSizeAndCenter pts tw th =
        pts.map (fun p => (fitScale pts tw th * p.1 + scaleDx pts tw th,
                           fitScale pts tw th * p.2 + scaleDy pts tw th))
    ∧ (ptsBounds (scaleToSizeAndCenter pts tw th)).1.1 +
        (ptsBounds (scaleToSizeAndCenter pts tw th)).2.1 = 0
    ∧ (ptsBounds (scaleToSizeAndCenter pts tw th)).1.2 +
        (ptsBounds (scaleToSizeAndCenter pts tw th)).2.2 = 0
    ∧ csWidth (scaleToSizeAndCenter pts tw th) = fitScale pts tw th * csWidth pts
    ∧ csHeight (scaleToSizeAndCenter pts tw th) = fitScale pts tw th * csHeight pts
    ∧ fitScale pts tw th * csWidth pts ≤ tw
    ∧ fitScale pts tw th * csHeight pts ≤ th
    ∧ (csWidth (scaleToSizeAndCenter pts tw th) = tw ∨
       csHeight (scaleToSizeAndCenter pts tw th) = th)
    ∧ scaleToSizeAndCenter degPts dtw dth = degPts := by
  have hB := scaleToSizeAndCenter_bounds pts tw th htw hth hw hh
  have hw' : 0 < csWidth pts := lt_of_le_of_ne (csWidth_nonneg pts) (Ne.symm hw)
  have hh' : 0 < csHeight pts := lt_of_le_of_ne (csHeight_nonneg pts) (Ne.symm hh)
  have hwres : csWidth (scaleToSizeAndCenter pts tw th) = fitScale pts tw th * csWidth pts := by
    simp only [csWidth, hB]
    ring
  have hhres : csHeight (scaleToSizeAndCenter pts tw th) = fitScale pts tw th * csHeight pts := by
    simp only [csHeight, hB]
    ring
  refine ⟨scaleToSizeAndCenter_eq_map pts tw th htw hth hw hh, ?_, ?_, hwres, hhres,
    fitScale_mul_width_le pts tw th hw, fitScale_mul_height_le pts tw th hh, ?_, ?_⟩
  · rw [hB]
    ring
  · rw [hB]
    ring
  · rcases le_total (tw / csWidth pts) (th / csHeight pts) with hcase | hcase
    · left
      rw [hwres]
      have : fitScale pts tw th = tw / csWidth pts := min_eq_left hcase
      rw [this, div_mul_cancel₀ tw (ne_of_gt hw')]
    · right
      rw [hhres]
      have : fitScale pts tw th = th / csHeight pts := min_eq_right hcase
      rw [this, div_mul_cancel₀ th (ne_of_gt hh')]
  · rw [scaleToSizeAndCenter_def2, if_pos hdeg]

/-- Witness for C5 at a concrete nondegenerate and a concrete degenerate
cross-section. -/
theorem C5_scaleToSizeAndCenter_witness :
    scaleToSizeAndCenter [((0 : ℚ), (0 : ℚ)), (2, 1)] 4 4 =
        [((0 : ℚ), (0 : ℚ)), (2, 1)].map
          (fun p => (fitScale [((0 : ℚ), (0 : ℚ)), (2, 1)] 4 4 * p.1 +
                       scaleDx [((0 : ℚ), (0 : ℚ)), (2, 1)] 4 4,
                     fitScale [((0 : ℚ), (0 : ℚ)), (2, 1)] 4 4 * p.2 +
                       scaleDy [((0 : ℚ), (0 : ℚ)), (2, 1)] 4 4))
    ∧ (ptsBounds (scaleToSizeAndCenter [((0 : ℚ), (0 : ℚ)), (2, 1)] 4 4)).1.1 +
        (ptsBounds (scaleToSizeAndCenter [((0 : ℚ), (0 : ℚ)), (2, 1)] 4 4)).2.1 = 0
    ∧ (ptsBounds (scaleToSizeAndCenter [((0 : ℚ), (0 : ℚ)), (2, 1)] 4 4)).1.2 +
        (ptsBounds (scaleToSizeAndCenter [((0 : ℚ), (0 : ℚ)), (2, 1)] 4 4)).2.2 = 0
    ∧ csWidth (scaleToSizeAndCenter [((0 : ℚ), (0 : ℚ)), (2, 1)] 4 4) =
        fitScale [((0 : ℚ), (0 : ℚ)), (2, 1)] 4 4 * csWidth [((0 : ℚ), (0 : ℚ)), (2, 1)]
    ∧ csHeight (scaleToSizeAndCenter [((0 : ℚ), (0 : ℚ)), (2, 1)] 4 4) =
        fitScale [((0 : ℚ), (0 : ℚ)), (2, 1)] 4 4 * csHeight [((0 : ℚ), (0 : ℚ)), (2, 1)]
    ∧ fitScale [((0 : ℚ), (0 : ℚ)), (2, 1)] 4 4 * csWidth [((0 : ℚ), (0 : ℚ)), (2, 1)] ≤ 4
    ∧ fitScale [((0 : ℚ), (0 : ℚ)), (2, 1)] 4 4 * csHeight [((0 : ℚ), (0 : ℚ)), (2, 1)] ≤ 4
    ∧ (csWidth (scaleToSizeAndCenter [((0 : ℚ), (0 : ℚ)), (2, 1)] 4 4) = 4 ∨
       csHeight (scaleToSizeAndCenter [((0 : ℚ), (0 : ℚ)), (2, 1)] 4 4) = 4)
    ∧ scaleToSizeAndCenter [((5 : ℚ), (5 : ℚ))] 1 1 = [((5 : ℚ), (5 : ℚ))] :=
  C5_scaleToSizeAndCenter [((0 : ℚ), (0 : ℚ)), (2, 1)] [((5 : ℚ), (5 : ℚ))] 4 4 1 1
    (by norm_num) (by norm_num)
    (by norm_num [csWidth, ptsBounds, lmin, lmax])
    (by norm_num [csHeight, ptsBounds, lmin, lmax])
    (by norm_num [csWidth, ptsBounds, lmin, lmax])

/-! Claim C1: the corner-circle radius of the disk profile. -/

/-- C1: the corner circles of the disk profile are always built with the
clamped radius min(roundingRadius, height/2); in particular, whenever
roundingRadius exceeds height/2, the radius used is height/2.  The profile
is a total function of its inputs, so no raw roundingRadius value causes an
error. -/
theorem C1_profile_corner_radius (radius roundingRadius height : ℚ) :
    circleRadii (generateDiskProfile radius roundingRadius height) =
      [min roundingRadius (height / 2), min roundingRadius (height / 2)]
    ∧ (height / 2 < roundingRadius →
        circleRadii (generateDiskProfile radius roundingRadius height) =
          [height / 2, height / 2]) := by
  constructor
  · simp [generateDiskProfile, circleRadii]
  · intro hlt
    simp [generateDiskProfile, circleRadii, min_eq_right (le_of_lt hlt)]

/-- Witness for C1 with roundingRadius 2 exceeding height/2 = 3/2. -/
theorem C1_profile_corner_radius_witness :
    circleRadii (generateDiskProfile 20 2 3) = [3 / 2, 3 / 2] :=
  (C1_profile_corner_radius 20 2 3).2 (by norm_num)

/-! Unfolding lemmas for the assembler, shared by several claims. -/

lemma assemble_printable_eq (env : ExtEnv) (params : MakerChipParams)
    (qrGen imgGen : Option Solid) (M : Solid)
    (hM : generateMarkingShape env params.markings params.radius
        params.roundingRadius params.height = .ok M) :
    assembleMakerchipShapes env params "printable" qrGen imgGen =
      .ok ([roundedDisk params.radius params.roundingRadius params.height,
            generateCenterDisk params.centerCircleRadius params.height, M] ++
        (match (if params.qrEnabled then qrGen else none) with
         | some qr =>
             [Solid.translate qr (0, 0, params.height - qr.boundingBox.bmax.2.2)]
         | none => []) ++
        (match (if params.imageEnabled then imgGen else none) with
         | some img => [Solid.mirror img (1, 0, 0)]
         | none => [])) := by
  simp only [assembleMakerchipShapes, hM]
  simp

lemma assemble_flat_eq (env : ExtEnv) (params : MakerChipParams)
    (qrGen imgGen : Option Solid) (M : Solid)
    (hM : generateMarkingShape env params.markings params.radius
        params.roundingRadius params.height = .ok M) :
    assembleMakerchipShapes env params "flat" qrGen imgGen =
      .ok ([roundedDisk params.radius params.roundingRadius params.height,
            Solid.translate M (2 * params.radius + 1, 0, 0),
            Solid.translate (generateCenterDisk params.centerCircleRadius params.height)
              (0, 2 * params.radius + 1, 0)] ++
        (match (if params.qrEnabled then qrGen else none) with
         | some qr =>
             [Solid.translate qr (-(params.radius + qrSizeEff params / 2 + 1), 0, 0)]
         | none => []) ++
        (match (if params.imageEnabled then imgGen else none) with
         | some img =>
             [Solid.translate img
               (0, -(params.radius +
                 (img.boundingBox.bmax.2.1 - img.boundingBox.bmin.2.1) / 2 + 1), 0)]
         | none => [])) := by
  simp only [assembleMakerchipShapes, hM]
  simp

lemma assemble_other_eq (env : ExtEnv) (params : MakerChipParams)
    (assemblyType : String) (qrGen imgGen : Option Solid) (M : Solid)
    (hM : generateMarkingShape env params.markings params.radius
        params.roundingRadius params.height = .ok M)
    (h1 : assemblyType ≠ "flat") (h2 : assemblyType ≠ "printable") :
    assembleMakerchipShapes env params assemblyType qrGen imgGen = .ok [] := by
  simp only [assembleMakerchipShapes, hM]
  rw [if_neg h1, if_neg h2]

/-! Concrete environment and pattern used by counterexamples and witnesses. -/

/-- Concrete external environment: the sampler returns the four corners of
the unit square for every SVG content, and simplification is the identity. -/
def demoEnv : ExtEnv :=
  ⟨fun _ => [(0, 0), (1, 0), (0, 1), (1, 1)], fun l _ => l⟩

/-- Vertex list parseSvgToCrossSection produces under demoEnv. -/
def demoPts : List (ℚ × ℚ) := [(0, 0), (1, 0), (0, -1), (1, -1)]

lemma demo_parse (maxError : ℚ) :
    parseSvgToCrossSection demoEnv "makerChipV1" maxError = .ok demoPts := by
  simp [parseSvgToCrossSection, embeddedSvgs, embeddedSvgKeys, demoEnv, demoPts]

/-- Marking solid generateMarkingShape produces under demoEnv. -/
def demoMarking (radius roundingRadius height : ℚ) : Solid :=
  roundDiskEdges
    (Solid.extrude
      (CS.fromPoints (scaleToSizeAndCenter demoPts (radius * 2 + 1 / 10) (radius * 2 + 1 / 10)))
      height)
    radius roundingRadius height

lemma demo_marking (radius roundingRadius height : ℚ) :
    generateMarkingShape demoEnv "makerChipV1" radius roundingRadius height =
      .ok (demoMarking radius roundingRadius height) := by
  simp [generateMarkingShape, demo_parse, demoMarking]

/-- Concrete parameters: the defaults of the parameter schema. -/
def demoParams : MakerChipParams :=
  ⟨20, 3, 1, 14, "printable", "makerChipV1", false, none, false⟩

/-! Claim C2: insertion order of the printable assembly. -/

/-- C2 counterexample: at the schema defaults the printable ShapeSet is
disk, center disk, marking, not disk, marking, center disk as claimed; the
element at index 1 is the center disk, which differs from the marking. -/
theorem C2_counterexample :
    assembleMakerchipShapes demoEnv demoParams "printable" none none =
      .ok [roundedDisk 20 1 3, generateCenterDisk 14 3, demoMarking 20 1 3]
    ∧ [roundedDisk 20 1 3, generateCenterDisk 14 3, demoMarking 20 1 3] ≠
      [roundedDisk 20 1 3, demoMarking 20 1 3, generateCenterDisk 14 3] := by
  constructor
  · have h := assemble_printable_eq demoEnv demoParams none none
      (demoMarking 20 1 3) (demo_marking 20 1 3)
    simpa [demoParams] using h
  · simp [generateCenterDisk, demoMarking, roundDiskEdges]

/-- C2 amended: for every parameter record whose marking resolves, the
printable ShapeSet has insertion order disk, center disk, marking, followed
by the QR part when present and then the image part when present. -/
theorem C2_printable_order (env : ExtEnv) (params : MakerChipParams)
    (qrGen imgGen : Option Solid) (M : Solid)
    (hM : generateMarkingShape env params.markings params.radius
        params.roundingRadius params.height = .ok M) :
    assembleMakerchipShapes env params "printable" qrGen imgGen =
      .ok ([roundedDisk params.radius params.roundingRadius params.height,
            generateCenterDisk params.centerCircleRadius params.height, M] ++
        (match (if params.qrEnabled then qrGen else none) with
         | some qr =>
             [Solid.translate qr (0, 0, params.height - qr.boundingBox.bmax.2.2)]
         | none => []) ++
        (match (if params.imageEnabled then imgGen else none) with
         | some img => [Solid.mirror img (1, 0, 0)]
         | none => [])) :=
  assemble_printable_eq env params qrGen imgGen M hM

/-- Witness for C2 amended at the schema defaults. -/
theorem C2_printable_order_witness :
    assembleMakerchipShapes demoEnv demoParams "printable" none none =
      .ok ([roundedDisk demoParams.radius demoParams.roundingRadius demoParams.height,
            generateCenterDisk demoParams.centerCircleRadius demoParams.height,
            demoMarking 20 1 3] ++
        (match (if demoParams.qrEnabled then none else none) with
         | some qr =>
             [Solid.translate qr (0, 0, demoParams.height - qr.boundingBox.bmax.2.2)]
         | none => []) ++
        (match (if demoParams.imageEnabled then none else none) with
         | some img => [Solid.mirror img (1, 0, 0)]
         | none => [])) :=
  C2_printable_order demoEnv demoParams none none (demoMarking 20 1 3) (demo_marking 20 1 3)

/-! Claim C3: part count of the printable assembly and QR top face. -/

/-- C3: when every enabled sub-shape generator succeeds, the printable
ShapeSet has length 3 plus one per enabled sub-shape; and when the QR
sub-shape is enabled and delivered, the part at index 3 is the QR solid
translated so the top face of its bounding box sits exactly at the chip
height. -/
theorem C3_printable_count_and_qr_top
    (env : ExtEnv) (p1 : MakerChipParams) (q1 i1 : Option Solid) (M1 : Solid)
    (hM1 : generateMarkingShape env p1.markings p1.radius p1.roundingRadius p1.height =
      .ok M1)
    (hq1 : p1.qrEnabled = true → q1.isSome = true)
    (hi1 : p1.imageEnabled = true → i1.isSome = true)
    (p2 : MakerChipParams) (q2s : Solid) (i2 : Option Solid) (M2 : Solid)
    (hM2 : generateMarkingShape env p2.markings p2.radius p2.roundingRadius p2.height =
      .ok M2)
    (hqe2 : p2.qrEnabled = true) :
    Except.map List.length (assembleMakerchipShapes env p1 "printable" q1 i1) =
      .ok (3 + (if p1.qrEnabled then 1 else 0) + (if p1.imageEnabled then 1 else 0))
    ∧ Except.map (fun l => (l.get? 3).map (fun s => s.boundingBox.bmax.2.2))
        (assembleMakerchipShapes env p2 "printable" (some q2s) i2) =
      .ok (some p2.height) := by
  have hcancel : ∀ a b : ℚ, a + (b - a) = b := by
    intro a b
    ring
  constructor
  · rw [assemble_printable_eq env p1 q1 i1 M1 hM1]
    simp only [Except.map]
    cases hqe : p1.qrEnabled with
    | false =>
        cases hie : p1.imageEnabled with
        | false => simp
        | true =>
            obtain ⟨iv, hiv⟩ := Option.isSome_iff_exists.mp (hi1 hie)
            subst hiv
            simp
    | true =>
        obtain ⟨qv, hqv⟩ := Option.isSome_iff_exists.mp (hq1 hqe)
        subst hqv
        cases hie : p1.imageEnabled with
        | false => simp
        | true =>
            obtain ⟨iv, hiv⟩ := Option.isSome_iff_exists.mp (hi1 hie)
            subst hiv
            simp
  · rw [assemble_printable_eq env p2 (some q2s) i2 M2 hM2, hqe2]
    cases hi2 : (if True then some q2s else none) with
    | none => simp at hi2
    | some qv =>
        simp only [if_true, Option.some.injEq] at hi2
        subst hi2
        cases hie : (if p2.imageEnabled then i2 else none) with
        | none => simp [Except.map, Solid.boundingBox, hcancel]
        | some iv => simp [Except.map, Solid.boundingBox, hcancel]

/-- Concrete QR solid delivered by the external generator. -/
def demoQr : Solid := Solid.prefab "qr" ⟨(-9, -9, 0), (9, 9, 1)⟩

/-- Concrete parameters with the QR sub-shape enabled. -/
def demoParamsQr : MakerChipParams :=
  ⟨20, 3, 1, 14, "printable", "makerChipV1", true, some 18, false⟩

/-- Witness for C3: four parts with QR enabled, and the QR top face at the
chip height. -/
theorem C3_printable_count_and_qr_top_witness :
    Except.map List.length
        (assembleMakerchipShapes demoEnv demoParamsQr "printable" (some demoQr) none) =
      .ok (3 + (if demoParamsQr.qrEnabled then 1 else 0) +
        (if demoParamsQr.imageEnabled then 1 else 0))
    ∧ Except.map (fun l => (l.get? 3).map (fun s => s.boundingBox.bmax.2.2))
        (assembleMakerchipShapes demoEnv demoParamsQr "printable" (some demoQr) none) =
      .ok (some demoParamsQr.height) :=
  C3_printable_count_and_qr_top demoEnv demoParamsQr (some demoQr) none
    (demoMarking 20 1 3) (demo_marking 20 1 3) (fun _ => rfl) (fun h => nomatch h)
    demoParamsQr demoQr none (demoMarking 20 1 3) (demo_marking 20 1 3) rfl

/-! Claim C4: the 3MF export forces the printable layout and assigns
extruders by part index. -/

/-- C4: threeMfExport ignores the assemblyType of its parameters and always
assembles with the printable layout, and the model_settings.config entry of
the part with 0-based index k has extruder k+1 for k below 4 and extruder 4
otherwise, so five parts get extruders 1, 2, 3, 4, 4. -/
theorem C4_threeMf_printable_and_extruders (env : ExtEnv) (params : MakerChipParams)
    (q i : Option Solid) (t : String) (n k : ℕ) (hk : k < n) :
    threeMfExport env { params with assemblyType := t } q i = threeMfExport env params q i
    ∧ Except.map ThreeMfModel.shapes (threeMfExport env params q i) =
        assembleMakerchipShapes env params "printable" q i
    ∧ (generateModelSettingsConfig n).get? k =
        some ⟨k + 1, "Makerchip-Assembly_" ++ toString (k + 1),
          if k < 4 then k + 1 else 4⟩
    ∧ (generateModelSettingsConfig 5).map PartConfig.extruder = [1, 2, 3, 4, 4] := by
  refine ⟨rfl, ?_, ?_, by decide⟩
  · cases h : assembleMakerchipShapes env params "printable" q i <;>
      simp [threeMfExport, h, Except.map]
  · simp only [generateModelSettingsConfig, extruderForPart, List.get?_eq_getElem?,
      List.getElem?_map, List.getElem?_range hk, Option.map_some']

/-- Witness for C4 at the fifth part of a five-part configuration. -/
theorem C4_threeMf_printable_and_extruders_witness :
    (generateModelSettingsConfig 5).get? 4 =
      some ⟨5, "Makerchip-Assembly_" ++ toString 5, if 4 < 4 then 5 else 4⟩ := by
  have h := (C4_threeMf_printable_and_extruders demoEnv demoParams none none "flat" 5 4
    (by norm_num)).2.2.1
  simpa using h

/-! Claim C8: pattern lookup fails exactly for unregistered names. -/

/-- C8: there are exactly 20 registered pattern identifiers;
parseSvgToCrossSection succeeds on every registered name and fails on every
unregistered name with an error message listing all registered identifiers,
producing no cross-section in that case. -/
theorem C8_parse_known_patterns (env : ExtEnv) (nameIn nameOut : String) (maxError : ℚ)
    (hIn : nameIn ∈ embeddedSvgKeys) (hOut : nameOut ∉ embeddedSvgKeys) :
    embeddedSvgKeys.length = 20
    ∧ (parseSvgToCrossSection env nameIn maxError).isOk = true
    ∧ parseSvgToCrossSection env nameOut maxError =
        .error ("Unknown shape: " ++ nameOut ++ ". Available shapes: " ++
          String.intercalate ", " embeddedSvgKeys) := by
  refine ⟨by decide, ?_, ?_⟩
  · simp [parseSvgToCrossSection, embeddedSvgs, if_pos hIn, Except.isOk, Except.toBool]
  · simp [parseSvgToCrossSection, embeddedSvgs, if_neg hOut]

/-- Witness for C8 at a registered and an unregistered name. -/
theorem C8_parse_known_patterns_witness :
    embeddedSvgKeys.length = 20
    ∧ (parseSvgToCrossSection demoEnv "makerChipV1" (1 / 100)).isOk = true
    ∧ parseSvgToCrossSection demoEnv "makerChipV99" (1 / 100) =
        .error ("Unknown shape: " ++ "makerChipV99" ++ ". Available shapes: " ++
          String.intercalate ", " embeddedSvgKeys) :=
  C8_parse_known_patterns demoEnv "makerChipV1" "makerChipV99" (1 / 100)
    (by decide) (by decide)

/-! Claim C9: a throwing sub-shape generator only loses that sub-shape. -/

/-- C9: when the QR generator throws (delivers nothing), both layouts still
assemble and contain the disk, center disk and marking, with the image part
unaffected; symmetrically when the image generator throws.  The error is
only logged in the source, which the pure model does not represent. -/
theorem C9_fail_soft (env : ExtEnv) (params : MakerChipParams) (q i : Option Solid)
    (M : Solid)
    (hM : generateMarkingShape env params.markings params.radius
        params.roundingRadius params.height = .ok M) :
    assembleMakerchipShapes env params "printable" none i =
      .ok ([roundedDisk params.radius params.roundingRadius params.height,
            generateCenterDisk params.centerCircleRadius params.height, M] ++
        (match (if params.imageEnabled then i else none) with
         | some img => [Solid.mirror img (1, 0, 0)]
         | none => []))
    ∧ assembleMakerchipShapes env params "flat" none i =
      .ok ([roundedDisk params.radius params.roundingRadius params.height,
            Solid.translate M (2 * params.radius + 1, 0, 0),
            Solid.translate (generateCenterDisk params.centerCircleRadius params.height)
              (0, 2 * params.radius + 1, 0)] ++
        (match (if params.imageEnabled then i else none) with
         | some img =>
             [Solid.translate img
               (0, -(params.radius +
                 (img.boundingBox.bmax.2.1 - img.boundingBox.bmin.2.1) / 2 + 1), 0)]
         | none => []))
    ∧ assembleMakerchipShapes env params "printable" q none =
      .ok ([roundedDisk params.radius params.roundingRadius params.height,
            generateCenterDisk params.centerCircleRadius params.height, M] ++
        (match (if params.qrEnabled then q else none) with
         | some qr =>
             [Solid.translate qr (0, 0, params.height - qr.boundingBox.bmax.2.2)]
         | none => []))
    ∧ assembleMakerchipShapes env params "flat" q none =
      .ok ([roundedDisk params.radius params.roundingRadius params.height,
            Solid.translate M (2 * params.radius + 1, 0, 0),
            Solid.translate (generateCenterDisk params.centerCircleRadius params.height)
              (0, 2 * params.radius + 1, 0)] ++
        (match (if params.qrEnabled then q else none) with
         | some qr =>
             [Solid.translate qr (-(params.radius + qrSizeEff params / 2 + 1), 0, 0)]
         | none => [])) := by
  refine ⟨?_, ?_, ?_, ?_⟩
  · rw [assemble_printable_eq env params none i M hM]
    simp [ite_self]
  · rw [assemble_flat_eq env params none i M hM]
    simp [ite_self]
  · rw [assemble_printable_eq env params q none M hM]
    simp [ite_self]
  · rw [assemble_flat_eq env params q none M hM]
    simp [ite_self]

/-- Witness for C9 with the QR sub-shape enabled but its generator
throwing: the printable ShapeSet still holds disk, center and marking. -/
theorem C9_fail_soft_witness :
    assembleMakerchipShapes demoEnv demoParamsQr "printable" none none =
      .ok ([roundedDisk demoParamsQr.radius demoParamsQr.roundingRadius demoParamsQr.height,
            generateCenterDisk demoParamsQr.centerCircleRadius demoParamsQr.height,
            demoMarking 20 1 3] ++
        (match (if demoParamsQr.imageEnabled then none else none : Option Solid) with
         | some img => [Solid.mirror img (1, 0, 0)]
         | none => [])) :=
  (C9_fail_soft demoEnv demoParamsQr none none (demoMarking 20 1 3)
    (demo_marking 20 1 3)).1

/-! Claim C10: unrecognized assembly types yield an empty ShapeSet. -/

/-- C10: for every assembly type other than flat and printable, the
assembler returns the empty list rather than an error (the disk, marking
and center solids are computed but none is pushed). -/
theorem C10_unknown_assembly_type (env : ExtEnv) (params : MakerChipParams)
    (assemblyType : String) (q i : Option Solid) (M : Solid)
    (hM : generateMarkingShape env params.markings params.radius
        params.roundingRadius params.height = .ok M)
    (h1 : assemblyType ≠ "flat") (h2 : assemblyType ≠ "printable") :
    assembleMakerchipShapes env params assemblyType q i = .ok [] :=
  assemble_other_eq env params assemblyType q i M hM h1 h2

/-- Witness for C10 at the unrecognized assembly type named stacked. -/
theorem C10_unknown_assembly_type_witness :
    assembleMakerchipShapes demoEnv demoParams "stacked" none none = .ok [] :=
  C10_unknown_assembly_type demoEnv demoParams "stacked" none none
    (demoMarking 20 1 3) (demo_marking 20 1 3) (by decide) (by decide)

/-! Bounding boxes of the three core parts, used by claim C6. -/

lemma roundedDisk_boundingBox (r rr h : ℚ) (hr : 0 < r) (hrr : 0 ≤ rr) (hh : 0 ≤ h) :
    Solid.boundingBox (roundedDisk r rr h) = ⟨(-r, -r, 0), (r, r, h)⟩ := by
  have hcl0 : 0 ≤ min rr (h / 2) := le_min hrr (by linarith)
  have hclh : min rr (h / 2) ≤ h / 2 := min_le_right _ _
  have h2cl : 2 * min rr (h / 2) ≤ h := by
    have := min_le_right rr (h / 2)
    linarith
  simp only [roundedDisk, generateDiskProfile, Solid.boundingBox, CS.bounds, hull2]
  norm_num
  refine ⟨⟨?_, ?_⟩, ?_, ?_⟩
  · rw [max_eq_left (by linarith : r - min rr (h / 2) ≤ r), max_eq_left (le_of_lt hr)]
  · rw [show -min rr (h / 2) + (h - min rr (h / 2)) = h - 2 * min rr (h / 2) by ring,
      show -((h - min rr (h / 2) * 2) / 2) + h / 2 = min rr (h / 2) by ring,
      min_eq_left (by linarith : (0 : ℚ) ≤ h - 2 * min rr (h / 2)),
      min_eq_left hcl0]
  · rw [max_eq_left (by linarith : r - min rr (h / 2) ≤ r), max_eq_left (le_of_lt hr)]
  · rw [show min rr (h / 2) + min rr (h / 2) = 2 * min rr (h / 2) by ring,
      max_eq_right (by linarith : 2 * min rr (h / 2) ≤ h),
      show (h - min rr (h / 2) * 2) / 2 + h / 2 = h - min rr (h / 2) by ring,
      max_eq_left (by linarith : h - min rr (h / 2) ≤ h)]

/-- Marking solid generateMarkingShape builds once the pattern has been
resolved to the vertex list pts. -/
def markingSolid (pts : List (ℚ × ℚ)) (radius roundingRadius height : ℚ) : Solid :=
  roundDiskEdges
    (Solid.extrude
      (CS.fromPoints (scaleToSizeAndCenter pts (radius * 2 + 1 / 10) (radius * 2 + 1 / 10)))
      height)
    radius roundingRadius height

lemma generateMarkingShape_eq (env : ExtEnv) (shapeName : String)
    (radius roundingRadius height : ℚ) (pts : List (ℚ × ℚ))
    (hP : parseSvgToCrossSection env shapeName = .ok pts) :
    generateMarkingShape env shapeName radius roundingRadius height =
      .ok (markingSolid pts radius roundingRadius height) := by
  simp only [generateMarkingShape]
  rw [hP]
  rfl

/-- Two closed boxes intersect when their projections on each axis
intersect. -/
def boxIntersects (a b : Box3) : Prop :=
  (a.bmin.1 ≤ b.bmax.1 ∧ b.bmin.1 ≤ a.bmax.1) ∧
  (a.bmin.2.1 ≤ b.bmax.2.1 ∧ b.bmin.2.1 ≤ a.bmax.2.1) ∧
  (a.bmin.2.2 ≤ b.bmax.2.2 ∧ b.bmin.2.2 ≤ a.bmax.2.2)

/-! Claim C6: bounding boxes of the flat layout. -/

/-- Concrete parameters at the smallest schema radius with the default
center circle radius. -/
def demoParamsSmall : MakerChipParams :=
  ⟨10, 3, 1, 14, "flat", "makerChipV1", false, none, false⟩

/-- C6 counterexample: with radius 10 (the schema minimum), rounding 1,
height 3 and the default center circle radius 14, the flat layout puts the
center disk box over the disk box: the two bounding boxes intersect. -/
theorem C6_counterexample :
    assembleMakerchipShapes demoEnv demoParamsSmall "flat" none none =
      .ok [roundedDisk 10 1 3,
           Solid.translate (markingSolid demoPts 10 1 3) (2 * 10 + 1, 0, 0),
           Solid.translate (generateCenterDisk 14 3) (0, 2 * 10 + 1, 0)]
    ∧ boxIntersects (Solid.boundingBox (roundedDisk 10 1 3))
        (Solid.boundingBox (Solid.translate (generateCenterDisk 14 3) (0, 2 * 10 + 1, 0))) := by
  have hM : generateMarkingShape demoEnv demoParamsSmall.markings demoParamsSmall.radius
      demoParamsSmall.roundingRadius demoParamsSmall.height = .ok (markingSolid demoPts 10 1 3) :=
    generateMarkingShape_eq demoEnv "makerChipV1" 10 1 3 demoPts (demo_parse (1 / 100))
  constructor
  · have h := assemble_flat_eq demoEnv demoParamsSmall none none
      (markingSolid demoPts 10 1 3) hM
    simpa [demoParamsSmall] using h
  · have hD : Solid.boundingBox (roundedDisk 10 1 3) = ⟨(-10, -10, 0), (10, 10, 3)⟩ :=
      roundedDisk_boundingBox 10 1 3 (by norm_num) (by norm_num) (by norm_num)
    have hC : Solid.boundingBox
        (Solid.translate (generateCenterDisk 14 3) (0, 2 * 10 + 1, 0)) =
        ⟨(-14, 7, 0), (14, 35, 3)⟩ := by
      simp [Solid.boundingBox, generateCenterDisk, CS.bounds]
      norm_num
    rw [hD, hC]
    norm_num [boxIntersects]

/-- C6 amended: with the QR and image sub-shapes absent, a pattern with
nondegenerate bounds, positive radius and height, nonnegative rounding, and
centerCircleRadius below radius + 19/20, the flat layout offsets the marking
and the center disk by exactly 2 radius + 1 along the x resp. y axis and no
two of the three parts have intersecting bounding boxes. -/
theorem C6_flat_no_overlap (env : ExtEnv) (params : MakerChipParams)
    (pts : List (ℚ × ℚ))
    (hP : parseSvgToCrossSection env params.markings = .ok pts)
    (hr : 0 < params.radius) (hh : 0 < params.height)
    (hrr : 0 ≤ params.roundingRadius)
    (hc : params.centerCircleRadius < params.radius + 19 / 20)
    (hw : csWidth pts ≠ 0) (hhp : csHeight pts ≠ 0) :
    assembleMakerchipShapes env params "flat" none none =
      .ok [roundedDisk params.radius params.roundingRadius params.height,
           Solid.translate
             (markingSolid pts params.radius params.roundingRadius params.height)
             (2 * params.radius + 1, 0, 0),
           Solid.translate
             (generateCenterDisk params.centerCircleRadius params.height)
             (0, 2 * params.radius + 1, 0)]
    ∧ ¬ boxIntersects
        (Solid.boundingBox (roundedDisk params.radius params.roundingRadius params.height))
        (Solid.boundingBox (Solid.translate
          (markingSolid pts params.radius params.roundingRadius params.height)
          (2 * params.radius + 1, 0, 0)))
    ∧ ¬ boxIntersects
        (Solid.boundingBox (roundedDisk params.radius params.roundingRadius params.height))
        (Solid.boundingBox (Solid.translate
          (generateCenterDisk params.centerCircleRadius params.height)
          (0, 2 * params.radius + 1, 0)))
    ∧ ¬ boxIntersects
        (Solid.boundingBox (Solid.translate
          (markingSolid pts params.radius params.roundingRadius params.height)
          (2 * params.radius + 1, 0, 0)))
        (Solid.boundingBox (Solid.translate
          (generateCenterDisk params.centerCircleRadius params.height)
          (0, 2 * params.radius + 1, 0))) := by
  have htw : (0 : ℚ) < params.radius * 2 + 1 / 10 := by linarith
  have hszb := scaleToSizeAndCenter_bounds pts (params.radius * 2 + 1 / 10)
    (params.radius * 2 + 1 / 10) htw htw hw hhp
  have hsw_le : fitScale pts (params.radius * 2 + 1 / 10) (params.radius * 2 + 1 / 10) *
      csWidth pts ≤ params.radius * 2 + 1 / 10 :=
    fitScale_mul_width_le pts _ _ hw
  have hsh_le : fitScale pts (params.radius * 2 + 1 / 10) (params.radius * 2 + 1 / 10) *
      csHeight pts ≤ params.radius * 2 + 1 / 10 :=
    fitScale_mul_height_le pts _ _ hhp
  have hs_pos : 0 < fitScale pts (params.radius * 2 + 1 / 10) (params.radius * 2 + 1 / 10) :=
    fitScale_pos pts _ _ htw htw hw hhp
  have hsw_nonneg : 0 ≤ fitScale pts (params.radius * 2 + 1 / 10)
      (params.radius * 2 + 1 / 10) * csWidth pts :=
    mul_nonneg (le_of_lt hs_pos) (csWidth_nonneg pts)
  have hsh_nonneg : 0 ≤ fitScale pts (params.radius * 2 + 1 / 10)
      (params.radius * 2 + 1 / 10) * csHeight pts :=
    mul_nonneg (le_of_lt hs_pos) (csHeight_nonneg pts)
  have hD : Solid.boundingBox (roundedDisk params.radius params.roundingRadius params.height) =
      ⟨(-params.radius, -params.radius, 0), (params.radius, params.radius, params.height)⟩ :=
    roundedDisk_boundingBox _ _ _ hr hrr (le_of_lt hh)
  have hMt : Solid.boundingBox (Solid.translate
      (markingSolid pts params.radius params.roundingRadius params.height)
      (2 * params.radius + 1, 0, 0)) =
      ⟨((ptsBounds (scaleToSizeAndCenter pts (params.radius * 2 + 1 / 10)
          (params.radius * 2 + 1 / 10))).1.1 + (2 * params.radius + 1),
        (ptsBounds (scaleToSizeAndCenter pts (params.radius * 2 + 1 / 10)
          (params.radius * 2 + 1 / 10))).1.2 + 0, 0 + 0),
       ((ptsBounds (scaleToSizeAndCenter pts (params.radius * 2 + 1 / 10)
          (params.radius * 2 + 1 / 10))).2.1 + (2 * params.radius + 1),
        (ptsBounds (scaleToSizeAndCenter pts (params.radius * 2 + 1 / 10)
          (params.radius * 2 + 1 / 10))).2.2 + 0, params.height + 0)⟩ := by
    simp [Solid.boundingBox, markingSolid, roundDiskEdges, CS.bounds]
  have hCt : Solid.boundingBox (Solid.translate
      (generateCenterDisk params.centerCircleRadius params.height)
      (0, 2 * params.radius + 1, 0)) =
      ⟨(-params.centerCircleRadius + 0, -params.centerCircleRadius + (2 * params.radius + 1),
        0 + 0),
       (params.centerCircleRadius + 0, params.centerCircleRadius + (2 * params.radius + 1),
        params.height + 0)⟩ := by
    simp [Solid.boundingBox, generateCenterDisk, CS.bounds]
  have hM : generateMarkingShape env params.markings params.radius
      params.roundingRadius params.height =
      .ok (markingSolid pts params.radius params.roundingRadius params.height) :=
    generateMarkingShape_eq env params.markings _ _ _ pts hP
  refine ⟨?_, ?_, ?_, ?_⟩
  · have h := assemble_flat_eq env params none none
      (markingSolid pts params.radius params.roundingRadius params.height) hM
    simpa [ite_self] using h
  · intro hI
    rw [hD, hMt, hszb] at hI
    obtain ⟨⟨-, hx2⟩, -, -⟩ := hI
    norm_num at hx2
    linarith
  · intro hI
    rw [hD, hCt] at hI
    obtain ⟨-, ⟨-, hy2⟩, -⟩ := hI
    norm_num at hy2
    linarith
  · intro hI
    rw [hMt, hCt, hszb] at hI
    obtain ⟨-, ⟨-, hy2⟩, -⟩ := hI
    norm_num at hy2
    linarith

/-- Witness for C6 amended at radius 20, center circle radius 14 and the
demo pattern: the three flat parts have pairwise disjoint bounding boxes. -/
theorem C6_flat_no_overlap_witness :
    ¬ boxIntersects (Solid.boundingBox (roundedDisk 20 1 3))
        (Solid.boundingBox (Solid.translate (markingSolid demoPts 20 1 3) (2 * 20 + 1, 0, 0)))
    ∧ ¬ boxIntersects (Solid.boundingBox (roundedDisk 20 1 3))
        (Solid.boundingBox (Solid.translate (generateCenterDisk 14 3) (0, 2 * 20 + 1, 0)))
    ∧ ¬ boxIntersects
        (Solid.boundingBox (Solid.translate (markingSolid demoPts 20 1 3) (2 * 20 + 1, 0, 0)))
        (Solid.boundingBox (Solid.translate (generateCenterDisk 14 3) (0, 2 * 20 + 1, 0))) :=
  (C6_flat_no_overlap demoEnv demoParams demoPts (demo_parse (1 / 100))
    (by norm_num [demoParams]) (by norm_num [demoParams]) (by norm_num [demoParams])
    (by norm_num [demoParams])
    (by norm_num [csWidth, ptsBounds, lmin, lmax, demoPts])
    (by norm_num [csHeight, ptsBounds, lmin, lmax, demoPts])).2

/-! Region lemmas for claim C7. -/

lemma convex_rect_set (a b c d : ℝ) :
    Convex ℝ {p : ℝ × ℝ | a ≤ p.1 ∧ p.1 ≤ b ∧ c ≤ p.2 ∧ p.2 ≤ d} := by
  intro p hp q hq u v hu hv huv
  obtain ⟨hp1, hp2, hp3, hp4⟩ := hp
  obtain ⟨hq1, hq2, hq3, hq4⟩ := hq
  have key : ∀ x y lo : ℝ, lo ≤ x → lo ≤ y → lo ≤ u * x + v * y := by
    intro x y lo hx hy
    have h1 := mul_le_mul_of_nonneg_left hx hu
    have h2 := mul_le_mul_of_nonneg_left hy hv
    have h3 : u * lo + v * lo = lo := by rw [← add_mul, huv, one_mul]
    linarith
  have key2 : ∀ x y hi : ℝ, x ≤ hi → y ≤ hi → u * x + v * y ≤ hi := by
    intro x y hi hx hy
    have h1 := mul_le_mul_of_nonneg_left hx hu
    have h2 := mul_le_mul_of_nonneg_left hy hv
    have h3 : u * hi + v * hi = hi := by rw [← add_mul, huv, one_mul]
    linarith
  simp only [Set.mem_setOf_eq, Prod.fst_add, Prod.snd_add, Prod.smul_fst, Prod.smul_snd,
    smul_eq_mul]
  exact ⟨key p.1 q.1 a hp1 hq1, key2 p.1 q.1 b hp2 hq2,
    key p.2 q.2 c hp3 hq3, key2 p.2 q.2 d hp4 hq4⟩

lemma convex_disk_set (t : ℝ) :
    Convex ℝ {p : ℝ × ℝ | p.1 ^ 2 + p.2 ^ 2 ≤ t ^ 2} := by
  intro p hp q hq u v hu hv huv
  simp only [Set.mem_setOf_eq] at hp hq
  simp only [Set.mem_setOf_eq, Prod.fst_add, Prod.snd_add, Prod.smul_fst, Prod.smul_snd,
    smul_eq_mul]
  have hv1 : v = 1 - u := by linarith
  subst hv1
  nlinarith [sq_nonneg (p.1 - q.1), sq_nonneg (p.2 - q.2), mul_nonneg hu hv,
    mul_le_mul_of_nonneg_left hp hu, mul_le_mul_of_nonneg_left hq hv]

lemma ptsBounds_le (pts : List (ℚ × ℚ)) (q : ℚ × ℚ) (hq : q ∈ pts) :
    (ptsBounds pts).1.1 ≤ q.1 ∧ q.1 ≤ (ptsBounds pts).2.1 ∧
    (ptsBounds pts).1.2 ≤ q.2 ∧ q.2 ≤ (ptsBounds pts).2.2 := by
  cases pts with
  | nil => exact absurd hq (List.not_mem_nil q)
  | cons p r =>
      rcases List.mem_cons.mp hq with h | h
      · subst h
        exact ⟨lmin_le_init _ _, init_le_lmax _ _, lmin_le_init _ _, init_le_lmax _ _⟩
      · exact ⟨lmin_le_mem _ _ _ (List.mem_map_of_mem Prod.fst h),
          mem_le_lmax _ _ _ (List.mem_map_of_mem Prod.fst h),
          lmin_le_mem _ _ _ (List.mem_map_of_mem Prod.snd h),
          mem_le_lmax _ _ _ (List.mem_map_of_mem Prod.snd h)⟩

/-- The region of a constructed cross-section lies inside the bounds the
kernel reports for it, provided every circle constructor has a nonnegative
radius. -/
lemma region_sub_bounds (cs : CS) :
    (∀ x ∈ circleRadii cs, 0 ≤ x) →
    ∀ p ∈ CS.region cs,
      ((CS.bounds cs).1.1 : ℝ) ≤ p.1 ∧ p.1 ≤ ((CS.bounds cs).2.1 : ℝ) ∧
      ((CS.bounds cs).1.2 : ℝ) ≤ p.2 ∧ p.2 ≤ ((CS.bounds cs).2.2 : ℝ) := by
  induction cs with
  | circle r seg =>
      intro hnn p hp
      have hr : (0 : ℚ) ≤ r := hnn r (by simp [circleRadii])
      have hr' : (0 : ℝ) ≤ (r : ℝ) := by exact_mod_cast hr
      simp only [CS.region, Set.mem_setOf_eq] at hp
      simp only [CS.bounds]
      push_cast
      refine ⟨?_, ?_, ?_, ?_⟩
      · nlinarith [sq_nonneg p.2, sq_nonneg (p.1 + (r : ℝ)), sq_nonneg (p.1 - (r : ℝ))]
      · nlinarith [sq_nonneg p.2, sq_nonneg (p.1 + (r : ℝ)), sq_nonneg (p.1 - (r : ℝ))]
      · nlinarith [sq_nonneg p.1, sq_nonneg (p.2 + (r : ℝ)), sq_nonneg (p.2 - (r : ℝ))]
      · nlinarith [sq_nonneg p.1, sq_nonneg (p.2 + (r : ℝ)), sq_nonneg (p.2 - (r : ℝ))]
  | square w h centered =>
      intro _ p hp
      cases centered with
      | false =>
          simp only [CS.region, Bool.false_eq_true, if_false, Set.mem_setOf_eq] at hp
          simp only [CS.bounds, Bool.false_eq_true, if_false]
          push_cast
          exact ⟨hp.1, hp.2.1, hp.2.2.1, hp.2.2.2⟩
      | true =>
          simp only [CS.region, if_true, Set.mem_setOf_eq] at hp
          simp only [CS.bounds, if_true]
          push_cast
          exact ⟨hp.1, hp.2.1, hp.2.2.1, hp.2.2.2⟩
  | add a b iha ihb =>
      intro hnn p hp
      have hnna : ∀ x ∈ circleRadii a, 0 ≤ x := by
        intro x hx
        exact hnn x (by simp [circleRadii, hx])
      have hnnb : ∀ x ∈ circleRadii b, 0 ≤ x := by
        intro x hx
        exact hnn x (by simp [circleRadii, hx])
      simp only [CS.bounds, hull2]
      rcases hp with hp | hp
      · obtain ⟨h1, h2, h3, h4⟩ := iha hnna p hp
        push_cast
        refine ⟨le_trans (by exact_mod_cast min_le_left _ _ : _ ≤ ((CS.bounds a).1.1 : ℝ)) h1,
          le_trans h2 (by exact_mod_cast le_max_left _ _),
          le_trans (by exact_mod_cast min_le_left _ _ : _ ≤ ((CS.bounds a).1.2 : ℝ)) h3,
          le_trans h4 (by exact_mod_cast le_max_left _ _)⟩
      · obtain ⟨h1, h2, h3, h4⟩ := ihb hnnb p hp
        push_cast
        refine ⟨le_trans (by exact_mod_cast min_le_right _ _ : _ ≤ ((CS.bounds b).1.1 : ℝ)) h1,
          le_trans h2 (by exact_mod_cast le_max_right _ _),
          le_trans (by exact_mod_cast min_le_right _ _ : _ ≤ ((CS.bounds b).1.2 : ℝ)) h3,
          le_trans h4 (by exact_mod_cast le_max_right _ _)⟩
  | translate c v ihc =>
      intro hnn p hp
      simp only [CS.region, Set.mem_setOf_eq] at hp
      obtain ⟨h1, h2, h3, h4⟩ := ihc (by simpa [circleRadii] using hnn) _ hp
      dsimp only at h1 h2 h3 h4
      simp only [CS.bounds]
      push_cast
      constructor
      · linarith
      constructor
      · linarith
      constructor
      · linarith
      · linarith
  | fromPoints pts =>
      intro _ p hp
      have hsub : {x : ℝ × ℝ | ∃ q ∈ pts, x = ((q.1 : ℝ), (q.2 : ℝ))} ⊆
          {x : ℝ × ℝ | ((ptsBounds pts).1.1 : ℝ) ≤ x.1 ∧ x.1 ≤ ((ptsBounds pts).2.1 : ℝ) ∧
            ((ptsBounds pts).1.2 : ℝ) ≤ x.2 ∧ x.2 ≤ ((ptsBounds pts).2.2 : ℝ)} := by
        rintro x ⟨q, hq, rfl⟩
        obtain ⟨h1, h2, h3, h4⟩ := ptsBounds_le pts q hq
        simp only [Set.mem_setOf_eq]
        exact ⟨by exact_mod_cast h1, by exact_mod_cast h2,
          by exact_mod_cast h3, by exact_mod_cast h4⟩
      have hhull := convexHull_min hsub
        (convex_rect_set ((ptsBounds pts).1.1 : ℝ) ((ptsBounds pts).2.1 : ℝ)
          ((ptsBounds pts).1.2 : ℝ) ((ptsBounds pts).2.2 : ℝ))
      have hmem := hhull hp
      simpa [CS.bounds] using hmem

/-! Claim C7: containment of the marking in the rounded disk. -/

/-- C7 amended: the trimmed marking is contained in the rounded disk
whenever every vertex of the scaled pattern lies within distance
radius + 10 of the revolution axis, so that the extruded pattern is covered
by the oversized cutting disk of roundDiskEdges. -/
theorem C7_marking_in_disk (env : ExtEnv) (shapeName : String)
    (radius roundingRadius height : ℚ) (pts : List (ℚ × ℚ)) (M : Solid)
    (hP : parseSvgToCrossSection env shapeName = .ok pts)
    (hM : generateMarkingShape env shapeName radius roundingRadius height = .ok M)
    (hr : 0 ≤ radius)
    (hIn : ∀ q ∈ scaleToSizeAndCenter pts (radius * 2 + 1 / 10) (radius * 2 + 1 / 10),
        q.1 ^ 2 + q.2 ^ 2 ≤ (radius + 10) ^ 2) :
    Solid.region M ⊆ Solid.region (roundedDisk radius roundingRadius height) := by
  rw [generateMarkingShape_eq env shapeName radius roundingRadius height pts hP] at hM
  have hMeq : M = markingSolid pts radius roundingRadius height := (Except.ok.inj hM).symm
  subst hMeq
  intro p hp
  simp only [markingSolid, roundDiskEdges, Solid.region, Set.mem_diff] at hp
  obtain ⟨hpE, hpns⟩ := hp
  by_cases hD : p ∈ Solid.region (roundedDisk radius roundingRadius height)
  · exact hD
  · exfalso
    apply hpns
    refine ⟨?_, hD⟩
    -- the point lies inside the oversized cylinder
    simp only [Solid.region, Set.mem_setOf_eq] at hpE ⊢
    obtain ⟨hpxy, hz0, hzh⟩ := hpE
    have hsub : {x : ℝ × ℝ | ∃ q ∈ scaleToSizeAndCenter pts (radius * 2 + 1 / 10)
          (radius * 2 + 1 / 10), x = ((q.1 : ℝ), (q.2 : ℝ))} ⊆
        {x : ℝ × ℝ | x.1 ^ 2 + x.2 ^ 2 ≤ ((radius : ℝ) + 10) ^ 2} := by
      rintro x ⟨q, hq, rfl⟩
      have h := hIn q hq
      simp only [Set.mem_setOf_eq]
      exact_mod_cast h
    have hxy : p.1 ^ 2 + p.2.1 ^ 2 ≤ ((radius : ℝ) + 10) ^ 2 := by
      have hhull := convexHull_min hsub (convex_disk_set ((radius : ℝ) + 10))
      have hmem := hhull (by simpa [CS.region] using hpxy)
      simpa using hmem
    have hrad : (0 : ℝ) ≤ (radius : ℝ) + 10 := by
      have : (0 : ℝ) ≤ (radius : ℝ) := by exact_mod_cast hr
      linarith
    refine ⟨Real.sqrt (p.1 ^ 2 + p.2.1 ^ 2), Real.sqrt_nonneg _, ?_, ?_⟩
    · exact Real.sq_sqrt (by positivity)
    · have hs2 : Real.sqrt (p.1 ^ 2 + p.2.1 ^ 2) ^ 2 = p.1 ^ 2 + p.2.1 ^ 2 :=
        Real.sq_sqrt (by positivity)
      have hsle : Real.sqrt (p.1 ^ 2 + p.2.1 ^ 2) ≤ (radius : ℝ) + 10 := by
        nlinarith [Real.sqrt_nonneg (p.1 ^ 2 + p.2.1 ^ 2), hs2, hxy, hrad]
      simp only [CS.region, Bool.false_eq_true, if_false, Set.mem_setOf_eq]
      push_cast
      exact ⟨Real.sqrt_nonneg _, hsle, by linarith, by linarith⟩

/-- Witness for C7 amended at radius 20 and the demo pattern, whose scaled
vertices stay within distance 30 of the axis. -/
theorem C7_marking_in_disk_witness :
    Solid.region (markingSolid demoPts 20 1 3) ⊆ Solid.region (roundedDisk 20 1 3) :=
  C7_marking_in_disk demoEnv "makerChipV1" 20 1 3 demoPts
    (markingSolid demoPts 20 1 3) (demo_parse (1 / 100))
    (generateMarkingShape_eq demoEnv "makerChipV1" 20 1 3 demoPts (demo_parse (1 / 100)))
    (by norm_num)
    (by
      intro q hq
      have hsz : scaleToSizeAndCenter demoPts (20 * 2 + 1 / 10) (20 * 2 + 1 / 10) =
          [(-(401 / 20), 401 / 20), (401 / 20, 401 / 20),
           (-(401 / 20), -(401 / 20)), (401 / 20, -(401 / 20))] := by
        norm_num [scaleToSizeAndCenter, ptsBounds, lmin, lmax, demoPts]
      rw [hsz] at hq
      simp only [List.mem_cons, List.not_mem_nil, or_false] at hq
      rcases hq with h | h | h | h <;> subst h <;> norm_num)

set_option maxHeartbeats 1000000 in
/-- C7 counterexample: at radius 100 the corner vertex of the scaled demo
pattern sits about 141.5 from the axis, beyond the oversized cutting disk of
radius 110, so it survives the trim yet lies outside the rounded disk: the
marking is not contained in the disk. -/
theorem C7_counterexample :
    generateMarkingShape demoEnv "makerChipV1" 100 1 3 =
      .ok (markingSolid demoPts 100 1 3)
    ∧ ¬ (Solid.region (markingSolid demoPts 100 1 3) ⊆
         Solid.region (roundedDisk 100 1 3)) := by
  have hgen : generateMarkingShape demoEnv "makerChipV1" 100 1 3 =
      .ok (markingSolid demoPts 100 1 3) :=
    generateMarkingShape_eq demoEnv "makerChipV1" 100 1 3 demoPts (demo_parse (1 / 100))
  refine ⟨hgen, ?_⟩
  intro hsub
  have hsz : scaleToSizeAndCenter demoPts (100 * 2 + 1 / 10) (100 * 2 + 1 / 10) =
      [(-(2001 / 20), 2001 / 20), (2001 / 20, 2001 / 20),
       (-(2001 / 20), -(2001 / 20)), (2001 / 20, -(2001 / 20))] := by
    norm_num [scaleToSizeAndCenter, ptsBounds, lmin, lmax, demoPts]
  have hptM : (((2001 : ℝ) / 20, (2001 : ℝ) / 20, (0 : ℝ))) ∈
      Solid.region (markingSolid demoPts 100 1 3) := by
    simp only [markingSolid, roundDiskEdges, Solid.region, Set.mem_diff, Set.mem_setOf_eq]
    constructor
    · refine ⟨?_, by norm_num, by norm_num⟩
      simp only [CS.region]
      apply subset_convexHull
      refine ⟨((2001 : ℚ) / 20, (2001 : ℚ) / 20), ?_, by norm_num⟩
      rw [hsz]
      simp
    · rintro ⟨⟨s, hs0, hs2, hmem⟩, -⟩
      simp only [CS.region, Bool.false_eq_true, if_false, Set.mem_setOf_eq] at hmem
      push_cast at hmem
      norm_num at hs2
      nlinarith [hmem.2.1, hs0, hs2]
  have hptD := hsub hptM
  obtain ⟨s, hs0, hs2, hmem⟩ := hptD
  have hnn : ∀ x ∈ circleRadii (generateDiskProfile 100 1 3), 0 ≤ x := by
    intro x hx
    simp only [generateDiskProfile, circleRadii, List.mem_append, List.mem_singleton,
      List.not_mem_nil, or_false] at hx
    rcases hx with h | h <;> subst h <;> positivity
  have hb := region_sub_bounds (generateDiskProfile 100 1 3) hnn (s, (0 : ℝ)) hmem
  have hbb := roundedDisk_boundingBox 100 1 3 (by norm_num) (by norm_num) (by norm_num)
  have hmx : max ((CS.bounds (generateDiskProfile 100 1 3)).2.1) 0 = 100 := by
    have h := congrArg (fun b => b.bmax.1) hbb
    simpa [roundedDisk, Solid.boundingBox] using h
  have hq100 : ((CS.bounds (generateDiskProfile 100 1 3)).2.1 : ℚ) ≤ 100 := by
    have h := le_max_left ((CS.bounds (generateDiskProfile 100 1 3)).2.1) (0 : ℚ)
    linarith
  have hs100 : s ≤ (100 : ℝ) := by
    have h1 : s ≤ ((CS.bounds (generateDiskProfile 100 1 3)).2.1 : ℝ) := hb.2.1
    have h2 : (((CS.bounds (generateDiskProfile 100 1 3)).2.1 : ℚ) : ℝ) ≤ (100 : ℝ) := by
      exact_mod_cast hq100
    linarith
  norm_num at hs2
  nlinarith [hs0, hs100, hs2]

end MakerChips
